import Mathlib

/-
Verification of the epoch-boundary detection core of the radt_thesis
repository (files radt/run/listeners/carbontracker_listener.py and
radt/run/listeners/epoch_listener.py).

The Python code is shallowly embedded:
  * `onEpochDetectedE` embeds `CarbonTrackerListener._on_epoch_detected`
    (carbontracker_listener.py lines 137-159), with two booleans saying
    whether the external calls `carbon_tracker.epoch_end()` /
    `carbon_tracker.epoch_start()` raise (the code wraps each in
    try/except and logs the error).
  * `runStep`/`runEvents` embed the supervising loop of
    `CarbonTrackerListener.run` (lines 215-254) and
    `CarbonTrackerListener.terminate` (lines 256-264) as a step function
    over an explicit event alphabet (matched signal, loop tick at a model
    time, terminate request).  Timestamps are naturals; the trace records
    the calls issued to the external carbontracker accounting session
    (plus a marker for the internal `parse_and_log_metrics` invocation,
    which is filtered out by `isAcctCall` when a claim talks about the
    accounting session only).
  * `tapWrite` embeds `OutputCapture.write` (epoch_listener.py lines
    46-63); `tapWriteCT` embeds the variant in carbontracker_listener.py
    lines 103-120 whose newline test is on `text` instead of the buffer.
  * `pat1` .. `pat7` / `matchLine` embed the default `epoch_patterns`
    regex list and the first-match-wins loop of `OutputCapture.write`.
  * `parse_and_log_metrics` embeds
    `CarbonTrackerListener.parse_and_log_metrics` (lines 161-213), with
    the filesystem passed in as an explicit list of log files and the
    two regex extractions implemented as explicit scanners.
-/

set_option maxHeartbeats 1000000

namespace Radt

/- Calls issued to the external carbontracker accounting session, plus a
marker for the internal metrics relay.  `sessionStart` is the
construction of the `CarbonTracker` instance (the session becoming
live); `epoch_start e` / `epoch_end e` are the no-argument
`carbon_tracker.epoch_start()` / `epoch_end()` calls, labelled with the
epoch the listener associates with them at the call site; `sessionStop`
is `carbon_tracker.stop()`; `logMetricsFor e` marks the
`parse_and_log_metrics(e)` invocation made after a successful
`epoch_end()`. -/
inductive ECall where
  | sessionStart : ECall
  | epoch_start : Int → ECall
  | epoch_end : Int → ECall
  | sessionStop : ECall
  | logMetricsFor : Int → ECall
deriving DecidableEq, Repr

/- True for the calls that go to the external accounting session. -/
def isAcctCall : ECall → Bool
  | ECall.logMetricsFor _ => false
  | _ => true

/- The reconciler's own state touched by `_on_epoch_detected`:
`self.current_epoch` (−1 = not yet started) and `self.last_epoch_time`. -/
structure RState where
  current_epoch : Int
  last_epoch_time : Nat
deriving DecidableEq, Repr

/- Output of one `_on_epoch_detected` call: the updated state, the calls
issued, and the error log lines produced by the two except-branches. -/
structure DetectOut where
  state : RState
  calls : List ECall
  errors : List String
deriving DecidableEq, Repr

/- Embeds `CarbonTrackerListener._on_epoch_detected(epoch, line)`:

    if epoch != self.current_epoch:
        if self.current_epoch >= 0:
            try:
                self.carbon_tracker.epoch_end()
                self.parse_and_log_metrics(self.current_epoch)
            except Exception as e:
                self.logger.error(...)
        self.current_epoch = epoch
        self.last_epoch_time = time()
        try:
            self.carbon_tracker.epoch_start()
        except Exception as e:
            self.logger.error(...)

`failEnd` / `failStart` say whether `epoch_end()` / `epoch_start()`
raise; the calls themselves are still issued (attempted) in that case,
but a failing `epoch_end()` skips `parse_and_log_metrics` (it sits in
the same try block) and produces an error log line instead.  The state
assignments are outside both try blocks and therefore unconditional.
The source line's content plays no role in this method and is omitted. -/
def onEpochDetectedE (failEnd failStart : Bool) (s : RState) (epoch : Int)
    (now : Nat) : DetectOut :=
  if epoch = s.current_epoch then
    ⟨s, [], []⟩
  else
    let endCalls : List ECall :=
      if 0 ≤ s.current_epoch then
        ECall.epoch_end s.current_epoch ::
          (if failEnd then [] else [ECall.logMetricsFor s.current_epoch])
      else []
    let endErrs : List String :=
      if 0 ≤ s.current_epoch ∧ failEnd = true then ["error ending epoch"] else []
    let startErrs : List String :=
      if failStart then ["error starting epoch"] else []
    ⟨⟨epoch, now⟩, endCalls ++ [ECall.epoch_start epoch], endErrs ++ startErrs⟩

/- `_on_epoch_detected` when neither external call raises (state and
calls only). -/
def onEpochDetected (s : RState) (epoch : Int) (now : Nat) :
    RState × List ECall :=
  let o := onEpochDetectedE false false s epoch now
  (o.state, o.calls)

/- Feed a list of matched signals `(epochNumber, detectedAt)` to the
reconciler, collecting the issued calls. -/
def processSignals (s : RState) : List (Int × Nat) → RState × List ECall
  | [] => (s, [])
  | (n, t) :: rest =>
    let r1 := onEpochDetected s n t
    let r2 := processSignals r1.1 rest
    (r2.1, r1.2 ++ r2.2)

/- The epoch numbers of the signals the reconciler accepts (those whose
number differs from `current_epoch` at the moment they are processed). -/
def acceptedSignals (s : RState) : List (Int × Nat) → List Int
  | [] => []
  | (n, t) :: rest =>
    if n = s.current_epoch then acceptedSignals s rest
    else n :: acceptedSignals (onEpochDetected s n t).1 rest

/- State of the supervising loop of `run` (plus the `terminate` flag):
`current_epoch`/`last_epoch_time` as in `RState`, `stop_event` is
`self._stop_event`, `finished` records that the while loop has exited
and the finally block (final `epoch_end`, `stop`, restore of stdout)
has run, so the output-capture callback can no longer fire. -/
structure LoopState where
  current_epoch : Int
  last_epoch_time : Nat
  stop_event : Bool
  finished : Bool
deriving DecidableEq, Repr

/- Events driving the loop model: a matched epoch signal delivered by
the output capture at a model time, one iteration of the while loop
observed at a model time, and a call of `terminate()`. -/
inductive Event where
  | signal : Int → Nat → Event
  | tick : Nat → Event
  | terminate : Event
deriving DecidableEq, Repr

/- One event of the loop model.  `maxE` is `self.max_epochs`, `thr` is
`self.epoch_duration_threshold`.

  * `signal n now`: the capture callback runs `_on_epoch_detected(n, line)`
    unless the tap has already been removed (`finished`).
  * `tick now`: one check of `while not self._stop_event.is_set() and
    self.current_epoch < self.max_epochs`.  If the condition fails, the
    finally block issues `carbon_tracker.epoch_end()` (inside
    try/except) and `carbon_tracker.stop()` and restores stdout
    (`finished := true`; the mlflow artifact/end_run calls are not
    accounting-session calls and are not recorded).  Otherwise, if
    `time() - self.last_epoch_time >= self.epoch_duration_threshold`,
    the loop forces `_on_epoch_detected(self.current_epoch + 1, ...)`.
  * `terminate`: `terminate()` sets the stop event, then issues
    `carbon_tracker.epoch_end()` (in try/except: pass) and
    `carbon_tracker.stop()`, unconditionally.
-/
def runStep (maxE : Int) (thr : Nat) (st : LoopState) : Event → LoopState × List ECall
  | Event.signal n now =>
    if st.finished then (st, [])
    else
      let r := onEpochDetected ⟨st.current_epoch, st.last_epoch_time⟩ n now
      ({ st with current_epoch := r.1.current_epoch,
                 last_epoch_time := r.1.last_epoch_time }, r.2)
  | Event.tick now =>
    if st.finished then (st, [])
    else if st.stop_event = true ∨ maxE ≤ st.current_epoch then
      ({ st with finished := true },
       [ECall.epoch_end st.current_epoch, ECall.sessionStop])
    else if thr ≤ now - st.last_epoch_time then
      let r := onEpochDetected ⟨st.current_epoch, st.last_epoch_time⟩
                 (st.current_epoch + 1) now
      ({ st with current_epoch := r.1.current_epoch,
                 last_epoch_time := r.1.last_epoch_time }, r.2)
    else (st, [])
  | Event.terminate =>
    ({ st with stop_event := true },
     [ECall.epoch_end st.current_epoch, ECall.sessionStop])

/- Fold `runStep` over an event list, collecting the trace. -/
def runEvents (maxE : Int) (thr : Nat) (st : LoopState) :
    List Event → LoopState × List ECall
  | [] => (st, [])
  | e :: es =>
    let r1 := runStep maxE thr st e
    let r2 := runEvents maxE thr r1.1 es
    (r2.1, r1.2 ++ r2.2)

/- Loop state right after the prologue of `run`:
`self.carbon_tracker.epoch_start(); self.current_epoch = 0;
self.last_epoch_time = time()` at model time `t0`. -/
def initLoop (t0 : Nat) : LoopState :=
  ⟨0, t0, false, false⟩

/- Accounting calls issued before any event: the `CarbonTracker`
construction in `__init__` (the session becoming live) and the
`epoch_start()` in the prologue of `run`, associated with epoch 0. -/
def initTrace : List ECall :=
  [ECall.sessionStart, ECall.epoch_start 0]

/- Full accounting-session trace of a run: prologue plus events,
restricted to the calls that go to the external session. -/
def acctTrace (maxE : Int) (thr : Nat) (t0 : Nat) (events : List Event) :
    List ECall :=
  (initTrace ++ (runEvents maxE thr (initLoop t0) events).2).filter
    (fun c => isAcctCall c)

/- ---------------------------------------------------------------------
Stream tap (`OutputCapture`).  Text is modelled as `List Char`.
--------------------------------------------------------------------- -/

/- Python's `s.split('\n')`: the segments between newlines, including a
(possibly empty) segment before the first and after the last newline. -/
def pySplit : List Char → List (List Char)
  | [] => [[]]
  | c :: rest =>
    if c = '\n' then [] :: pySplit rest
    else
      match pySplit rest with
      | [] => [[c]]
      | l :: ls => (c :: l) :: ls

/- Prepend a non-newline character to a (lines, buffer) pair: it extends
the first complete line if there is one, the buffer otherwise. -/
def consCh (c : Char) : List (List Char) × List Char → List (List Char) × List Char
  | ([], b) => ([], c :: b)
  | (l :: ls, b) => ((c :: l) :: ls, b)

/- `pySplit` split into the complete (newline-terminated) lines and the
trailing partial fragment: `splitLines s = (lines, buffer)` with
`pySplit s = lines ++ [buffer]` (proved in claim C7's theorem).
This is exactly the `lines = buffer.split('\n'); buffer = lines.pop()`
step of `OutputCapture.write`. -/
def splitLines : List Char → List (List Char) × List Char
  | [] => ([], [])
  | c :: rest =>
    if c = '\n' then ([] :: (splitLines rest).1, (splitLines rest).2)
    else consCh c (splitLines rest)

/- Prefix the first element of a line list (the continuation of a
pending buffer into subsequently written text). -/
def mergeFirst (b : List Char) : List (List Char) → List (List Char)
  | [] => []
  | l :: ls => (b ++ l) :: ls

/- Observable state of one `OutputCapture` object: the pending partial
line (`self.buffer`), the chunks forwarded verbatim to the original
stream, the chunks appended to the capture file, and the complete lines
handed to the pattern-matching loop, all in order. -/
structure TapState where
  buffer : List Char
  forwarded : List (List Char)
  captured : List (List Char)
  handed : List (List Char)
deriving DecidableEq, Repr

/- Embeds `OutputCapture.write(text)` of epoch_listener.py:

    self.original.write(text)
    self.capture_file.write(text); self.capture_file.flush()
    self.buffer += text
    if '\n' in self.buffer:
        lines = self.buffer.split('\n')
        self.buffer = lines.pop()
        for line in lines: ...hand line to the pattern loop...
-/
def tapWrite (st : TapState) (text : List Char) : TapState :=
  let buf := st.buffer ++ text
  if '\n' ∈ buf then
    let r := splitLines buf
    { buffer := r.2, forwarded := st.forwarded ++ [text],
      captured := st.captured ++ [text], handed := st.handed ++ r.1 }
  else
    { buffer := buf, forwarded := st.forwarded ++ [text],
      captured := st.captured ++ [text], handed := st.handed }

/- The variant of `OutputCapture.write` inside carbontracker_listener.py,
whose newline test is `if '\n' in text:` (on the chunk, not on the
buffer); everything else is identical. -/
def tapWriteCT (st : TapState) (text : List Char) : TapState :=
  let buf := st.buffer ++ text
  if '\n' ∈ text then
    let r := splitLines buf
    { buffer := r.2, forwarded := st.forwarded ++ [text],
      captured := st.captured ++ [text], handed := st.handed ++ r.1 }
  else
    { buffer := buf, forwarded := st.forwarded ++ [text],
      captured := st.captured ++ [text], handed := st.handed }

/- A fresh `OutputCapture`: empty buffer, nothing written yet. -/
def tapInit : TapState := ⟨[], [], [], []⟩

/- ---------------------------------------------------------------------
Boundary matcher: the default `epoch_patterns` regex list.
--------------------------------------------------------------------- -/

/- Python's `\s` on the ASCII inputs at hand: space, tab, newline,
carriage return, vertical tab, form feed. -/
def isPySpace (c : Char) : Bool :=
  c = ' ' ∨ c = '\t' ∨ c = '\n' ∨ c = '\r' ∨ c = Char.ofNat 11 ∨ c = Char.ofNat 12

/- The character class `[:\s=]` of patterns 2 and 5. -/
def isSepChar (c : Char) : Bool :=
  c = ':' ∨ c = '=' ∨ isPySpace c

/- `int()` of a nonempty decimal digit group. -/
def digitsToNat (ds : List Char) : Nat :=
  ds.foldl (fun a c => 10 * a + (c.toNat - 48)) 0

/- Match a literal at the head of the input (case sensitive), returning
the rest. -/
def lit : List Char → List Char → Option (List Char)
  | [], s => some s
  | _ :: _, [] => none
  | p :: ps, c :: cs => if c = p then lit ps cs else none

/- Run an anchored matcher at every position of the line, leftmost
success first: Python's `re.search`. -/
def searchFrom (tryAt : List Char → Option Nat) : List Char → Option Nat
  | [] => tryAt []
  | c :: rest =>
    match tryAt (c :: rest) with
    | some n => some n
    | none => searchFrom tryAt rest

/- Pattern `Epoch\s*(\d+)(?:/\d+)?` anchored at the current position:
literal `Epoch`, greedy whitespace, at least one digit (the group; the
optional `/\d+` tail cannot affect success or the group, since `\s` and
`/` are disjoint from `\d`). -/
def tryP1 (s : List Char) : Option Nat :=
  match lit ("Epoch".toList) s with
  | none => none
  | some s1 =>
    let s2 := s1.dropWhile isPySpace
    let ds := s2.takeWhile Char.isDigit
    if ds.isEmpty then none else some (digitsToNat ds)

/- Pattern `(?:Training|Epoch)[:\s=]+(\d+)` anchored: one of the two
literals (they cannot both match at one position), then at least one
separator, then at least one digit. -/
def tryP2 (s : List Char) : Option Nat :=
  let afterLit :=
    match lit ("Training".toList) s with
    | some s1 => some s1
    | none => lit ("Epoch".toList) s
  match afterLit with
  | none => none
  | some s1 =>
    let seps := s1.takeWhile isSepChar
    let s2 := s1.dropWhile isSepChar
    if seps.isEmpty then none
    else
      let ds := s2.takeWhile Char.isDigit
      if ds.isEmpty then none else some (digitsToNat ds)

/- Pattern `Epoch\s+(\d+)/\d+` anchored. -/
def tryP3 (s : List Char) : Option Nat :=
  match lit ("Epoch".toList) s with
  | none => none
  | some s1 =>
    let sp := s1.takeWhile isPySpace
    let s2 := s1.dropWhile isPySpace
    if sp.isEmpty then none
    else
      let ds := s2.takeWhile Char.isDigit
      let s3 := s2.dropWhile Char.isDigit
      if ds.isEmpty then none
      else
        match s3 with
        | '/' :: s4 =>
          if (s4.takeWhile Char.isDigit).isEmpty then none
          else some (digitsToNat ds)
        | _ => none

/- Pattern `Epoch\s*#?\s*(\d+)` anchored. -/
def tryP4 (s : List Char) : Option Nat :=
  match lit ("Epoch".toList) s with
  | none => none
  | some s1 =>
    let s2 := s1.dropWhile isPySpace
    let s3 :=
      match s2 with
      | '#' :: r => r.dropWhile isPySpace
      | _ => s2
    let ds := s3.takeWhile Char.isDigit
    if ds.isEmpty then none else some (digitsToNat ds)

/- Pattern `epoch[:\s=]+(\d+)` anchored. -/
def tryP5 (s : List Char) : Option Nat :=
  match lit ("epoch".toList) s with
  | none => none
  | some s1 =>
    let seps := s1.takeWhile isSepChar
    let s2 := s1.dropWhile isSepChar
    if seps.isEmpty then none
    else
      let ds := s2.takeWhile Char.isDigit
      if ds.isEmpty then none else some (digitsToNat ds)

/- Pattern `EPOCH\s*(\d+)` anchored. -/
def tryP6 (s : List Char) : Option Nat :=
  match lit ("EPOCH".toList) s with
  | none => none
  | some s1 =>
    let s2 := s1.dropWhile isPySpace
    let ds := s2.takeWhile Char.isDigit
    if ds.isEmpty then none else some (digitsToNat ds)

def pat1 (line : List Char) : Option Nat := searchFrom tryP1 line
def pat2 (line : List Char) : Option Nat := searchFrom tryP2 line
def pat3 (line : List Char) : Option Nat := searchFrom tryP3 line
def pat4 (line : List Char) : Option Nat := searchFrom tryP4 line
def pat5 (line : List Char) : Option Nat := searchFrom tryP5 line
def pat6 (line : List Char) : Option Nat := searchFrom tryP6 line

/- Pattern `^\[(\d+),`: anchored at the start of the line (`^` with
`re.search` and no MULTILINE flag only matches at position 0). -/
def pat7 (line : List Char) : Option Nat :=
  match line with
  | '[' :: rest =>
    let ds := rest.takeWhile Char.isDigit
    let r2 := rest.dropWhile Char.isDigit
    if ds.isEmpty then none
    else
      match r2 with
      | ',' :: _ => some (digitsToNat ds)
      | _ => none
  | _ => none

/- The default `epoch_patterns` list, in source order. -/
def defaultPatterns : List (List Char → Option Nat) :=
  [pat1, pat2, pat3, pat4, pat5, pat6, pat7]

/- The per-line pattern loop of `OutputCapture.write`: try the patterns
in order; the first one that matches wins and the loop breaks.  (The
`int(match.group(1))` conversion cannot raise, since every group is a
nonempty digit run.) -/
def matchLine (line : List Char) : Option Nat :=
  defaultPatterns.findSome? (fun p => p line)

/- ---------------------------------------------------------------------
Helpers for stating the boundary-pairing invariant (claim C1).
--------------------------------------------------------------------- -/

/- The calls emitted by a sequence of accepted boundary transitions
starting from current epoch `c` (metrics markers filtered out): each
accepted epoch `e` contributes `epoch_end` of the previous current
epoch immediately followed by `epoch_start e`. -/
def boundaryChain : Int → List Int → List ECall
  | _, [] => []
  | c, e :: es => ECall.epoch_end c :: ECall.epoch_start e :: boundaryChain e es

/- The current epoch after the accepted transitions `es`, starting
from `c`. -/
def chainEnd (c : Int) (es : List Int) : Int :=
  es.getLastD c

/- Events of a run in which `terminate()` is never called and every
matched signal carries a non-negative epoch number (epoch numbers
extracted from `(\d+)` groups are naturals). -/
def benignEvent : Event → Bool
  | Event.signal n _ => decide (0 ≤ n)
  | Event.tick _ => true
  | Event.terminate => false

/- A signal event that re-emits epoch marker `c` (claim C10). -/
def isDupOf (c : Int) : Event → Bool
  | Event.signal n _ => decide (n = c)
  | _ => false

/- ---------------------------------------------------------------------
Metrics relay: `CarbonTrackerListener.parse_and_log_metrics`.
--------------------------------------------------------------------- -/

/- One carbontracker log file on disk: its creation time (the key of
`max(log_files, key=os.path.getctime)`) and its text content. -/
structure LogFile where
  ctime : Nat
  content : List Char
deriving DecidableEq, Repr

/- Observable outcome of one `parse_and_log_metrics` call: the warning
for an empty log directory, the warning for an empty metric batch, or
the single `mlflow.log_metrics(metrics, step=epoch)` call. -/
inductive RelayCall where
  | warnNoFiles : RelayCall
  | warnNoMetrics : Int → RelayCall
  | logMetrics : List (String × ℚ) → Int → RelayCall
deriving DecidableEq, Repr

/- Match a literal case-insensitively (the `re.IGNORECASE` flag),
returning the rest. -/
def litCI : List Char → List Char → Option (List Char)
  | [], s => some s
  | _ :: _, [] => none
  | p :: ps, c :: cs => if c.toLower = p.toLower then litCI ps cs else none

/- The number shape `(\d+\.?\d*)`: at least one digit, an optional dot,
then any digits; returns (integer digits, fraction digits, rest).  The
digit runs are maximal, as the greedy quantifiers produce them. -/
def matchNumber (s : List Char) : Option (List Char × List Char × List Char) :=
  let ip := s.takeWhile Char.isDigit
  let r1 := s.dropWhile Char.isDigit
  if ip.isEmpty then none
  else
    match r1 with
    | '.' :: r2 => some (ip, r2.takeWhile Char.isDigit, r2.dropWhile Char.isDigit)
    | _ => some (ip, [], r1)

/- The exact rational value of a decimal literal (`float()` of the
captured group; the claims only involve values that are exact). -/
def decVal (ip fp : List Char) : ℚ :=
  (digitsToNat ip : ℚ) + (digitsToNat fp : ℚ) / ((10 : ℚ) ^ fp.length)

def epochLitCI : List Char := "epoch".toList
def gpuLit : List Char := "average power usage (w) for gpu:".toList
def ciLit1 : List Char := "average carbon intensity during training was ".toList
def ciLit2 : List Char := " gco2/kwh".toList

/- The suffix `Average power usage \(W\) for gpu:\s*(\d+\.?\d*)` of the
power regex, anchored at the current position (case-insensitive). -/
def matchGpuTail (s : List Char) : Option (ℚ × List Char) :=
  match litCI gpuLit s with
  | none => none
  | some s1 =>
    match matchNumber (s1.dropWhile isPySpace) with
    | none => none
    | some (ip, fp, rest) => some (decVal ip fp, rest)

/- The non-greedy `.*?` (with `re.DOTALL`) before that suffix: the
nearest position at which the suffix matches. -/
def scanGpu : List Char → Option (ℚ × List Char)
  | [] => none
  | c :: rest =>
    match matchGpuTail (c :: rest) with
    | some r => some r
    | none => scanGpu rest

/- The full power regex
`Epoch\s*(\d+):.*?Average power usage \(W\) for gpu:\s*(\d+\.?\d*)`
(flags DOTALL and IGNORECASE) anchored at the current position; returns
the two groups and the rest of the text after the match. -/
def matchPowerAt (s : List Char) : Option (Nat × ℚ × List Char) :=
  match litCI epochLitCI s with
  | none => none
  | some s1 =>
    let s2 := s1.dropWhile isPySpace
    let ds := s2.takeWhile Char.isDigit
    let s3 := s2.dropWhile Char.isDigit
    if ds.isEmpty then none
    else
      match s3 with
      | ':' :: s4 =>
        match scanGpu s4 with
        | none => none
        | some (q, rest) => some (digitsToNat ds, q, rest)
      | _ => none

/- `re.findall` of the power regex: scan left to right; at the first
position where the regex matches, record the groups and continue after
the matched span (non-overlapping), else advance one character.  Fuel
counts scan steps; every step consumes at least one character (a match
consumes at least the `epoch` literal), so `length + 1` steps always
reach the end of the text and the fuel is never exhausted. -/
def findPowerAux : Nat → List Char → List (Nat × ℚ)
  | 0, _ => []
  | _ + 1, [] => []
  | fuel + 1, c :: rest =>
    match matchPowerAt (c :: rest) with
    | some (e, q, after) => (e, q) :: findPowerAux fuel after
    | none => findPowerAux fuel rest

def findPower (s : List Char) : List (Nat × ℚ) :=
  findPowerAux (s.length + 1) s

/- The carbon-intensity regex
`Average carbon intensity during training was (\d+\.?\d*) gCO2/kWh`
(IGNORECASE) anchored at the current position. -/
def matchCIAt (s : List Char) : Option ℚ :=
  match litCI ciLit1 s with
  | none => none
  | some s1 =>
    match matchNumber s1 with
    | none => none
    | some (ip, fp, s2) =>
      match litCI ciLit2 s2 with
      | none => none
      | some _ => some (decVal ip fp)

/- `re.search` of the carbon-intensity regex. -/
def searchCI : List Char → Option ℚ
  | [] => none
  | c :: rest =>
    match matchCIAt (c :: rest) with
    | some q => some q
    | none => searchCI rest

/- `max(log_files, key=os.path.getctime)`: the first file with maximal
creation time (Python's `max` keeps the earliest of equal keys). -/
def latestLog : LogFile → List LogFile → LogFile
  | best, [] => best
  | best, f :: fs => latestLog (if best.ctime < f.ctime then f else best) fs

def gpuKey : String := "Carbontracker - GPU Power W"
def ciKey : String := "Carbontracker - Carbon Intensity gCO2/kWh"

/- The `for matched_epoch, gpu_power in power_matches:` loop writing
`metrics['Carbontracker - GPU Power W']`: a dict assignment per record
whose epoch equals the published epoch, so the last matching record's
value survives. -/
def powerFold (epoch : Int) (recs : List (Nat × ℚ)) : Option ℚ :=
  recs.foldl (fun acc r => if (r.1 : Int) = epoch then some r.2 else acc) none

/- Embeds `CarbonTrackerListener.parse_and_log_metrics(epoch)`.  The log
directory's files are an explicit argument; file reading cannot fail in
the model (the surrounding try/except never fires on the paths the
claims describe).  No files: warn and return.  Otherwise parse the most
recently created file; build the metric dict (power value for the
published epoch, then carbon intensity if present); call
`mlflow.log_metrics(metrics, step=epoch)` only when the dict is
non-empty, else warn. -/
def parse_and_log_metrics (files : List LogFile) (epoch : Int) : List RelayCall :=
  match files with
  | [] => [RelayCall.warnNoFiles]
  | f :: fs =>
    let latest := latestLog f fs
    let pw := powerFold epoch (findPower latest.content)
    let ci := searchCI latest.content
    let metrics : List (String × ℚ) :=
      (match pw with
       | some q => [(gpuKey, q)]
       | none => []) ++
      (match ci with
       | some q => [(ciKey, q)]
       | none => [])
    if metrics.isEmpty then [RelayCall.warnNoMetrics epoch]
    else [RelayCall.logMetrics metrics epoch]

/- Concrete log-file content for claim C9's scenario: an "Epoch 2" power
record of 150.5 W and no carbon-intensity line. -/
def c9content : List Char :=
  "Epoch 2:\nsome stats\nAverage power usage (W) for gpu: 150.5\n".toList

/- Event list of claim C2's scenario: matched signals for epochs
0, 1, 1, 2, then a terminate request, then the loop iteration that
observes it. -/
def c2events : List Event :=
  [Event.signal 0 1, Event.signal 1 2, Event.signal 1 3, Event.signal 2 4,
   Event.terminate, Event.tick 5]

/- =====================================================================
Theorems.
===================================================================== -/

/- A duplicate signal (`epoch == self.current_epoch`) leaves the state
untouched and issues no calls. -/
theorem onEpochDetected_dup (s : RState) (n : Int) (t : Nat)
    (h : n = s.current_epoch) : onEpochDetected s n t = (s, []) := by
  subst h
  simp [onEpochDetected, onEpochDetectedE]

/- An accepted signal (`epoch != self.current_epoch`) sets the state to
the new epoch and timestamp and issues the end/metrics/start calls. -/
theorem onEpochDetected_accept (s : RState) (n : Int) (t : Nat)
    (h : n ≠ s.current_epoch) :
    onEpochDetected s n t =
      (⟨n, t⟩,
       (if 0 ≤ s.current_epoch then
          [ECall.epoch_end s.current_epoch, ECall.logMetricsFor s.current_epoch]
        else []) ++ [ECall.epoch_start n]) := by
  simp only [onEpochDetected, onEpochDetectedE, if_neg h]
  split <;> simp

/-- C3: a signal with `n == currentEpoch` causes no state change and no
external calls; a signal with `n != currentEpoch` (including `n` lower
than `currentEpoch`) fires exactly one boundary transition —
`epoch_end` for the old epoch when it is ≥ 0, then `epoch_start n` —
and sets `currentEpoch := n`, so after any signal sequence
`currentEpoch` equals the last accepted signal's epoch number. -/
theorem c3_signal_transitions :
    (∀ (s : RState) (n : Int) (t : Nat), n = s.current_epoch →
       onEpochDetected s n t = (s, [])) ∧
    (∀ (s : RState) (n : Int) (t : Nat), n ≠ s.current_epoch →
       (onEpochDetected s n t).1 = ⟨n, t⟩ ∧
       (onEpochDetected s n t).2.filter (fun c => isAcctCall c) =
         (if 0 ≤ s.current_epoch then [ECall.epoch_end s.current_epoch]
          else []) ++ [ECall.epoch_start n]) ∧
    (∀ (s : RState) (sigs : List (Int × Nat)),
       (processSignals s sigs).1.current_epoch =
         (acceptedSignals s sigs).getLastD s.current_epoch) := by
  refine ⟨fun s n t h => onEpochDetected_dup s n t h, ?_, ?_⟩
  · intro s n t h
    rw [onEpochDetected_accept s n t h]
    constructor
    · rfl
    · split <;> simp [isAcctCall]
  · intro s sigs
    induction sigs generalizing s with
    | nil => simp [processSignals, acceptedSignals]
    | cons p rest ih =>
      obtain ⟨n, t⟩ := p
      by_cases h : n = s.current_epoch
      · subst h
        have hd := onEpochDetected_dup s s.current_epoch t rfl
        simp [processSignals, acceptedSignals, hd, ih]
      · have ha := onEpochDetected_accept s n t h
        have h2 : acceptedSignals s ((n, t) :: rest) =
            n :: acceptedSignals (onEpochDetected s n t).1 rest := by
          simp [acceptedSignals, h]
        have h3 : (processSignals s ((n, t) :: rest)).1 =
            (processSignals (onEpochDetected s n t).1 rest).1 := by
          simp [processSignals]
        rw [h3, h2, List.getLastD_cons, ih, ha]

/-- C3 witness: a duplicate at epoch 5 is a no-op; a signal for epoch 3
while the current epoch is 5 (a lower epoch number) still fires the
end/start pair and sets the epoch to 3. -/
theorem c3_witness :
    onEpochDetected ⟨5, 0⟩ 5 7 = (⟨5, 0⟩, []) ∧
    ((onEpochDetected ⟨5, 0⟩ 3 7).1 = ⟨3, 7⟩ ∧
     (onEpochDetected ⟨5, 0⟩ 3 7).2.filter (fun c => isAcctCall c) =
       (if 0 ≤ (⟨5, 0⟩ : RState).current_epoch
        then [ECall.epoch_end (⟨5, 0⟩ : RState).current_epoch] else []) ++
         [ECall.epoch_start 3]) :=
  ⟨c3_signal_transitions.1 ⟨5, 0⟩ 5 7 rfl,
   c3_signal_transitions.2.1 ⟨5, 0⟩ 3 7 (by decide)⟩

/-- C6: when `epoch_end()` and/or `epoch_start()` raise during a
boundary transition, the reconciler does not crash (the embedding is a
total function), issues the same accounting-session calls, and advances
its own state exactly as in the success case: on an accepted signal
`current_epoch := n` and `last_epoch_time := now` regardless of the
failures. -/
theorem c6_external_failure_state :
    ∀ (failEnd failStart : Bool) (s : RState) (n : Int) (t : Nat),
      (onEpochDetectedE failEnd failStart s n t).state =
        (onEpochDetectedE false false s n t).state ∧
      (onEpochDetectedE failEnd failStart s n t).calls.filter
          (fun c => isAcctCall c) =
        (onEpochDetectedE false false s n t).calls.filter
          (fun c => isAcctCall c) ∧
      (n ≠ s.current_epoch →
        (onEpochDetectedE failEnd failStart s n t).state = ⟨n, t⟩) := by
  intro failEnd failStart s n t
  by_cases h : n = s.current_epoch
  · subst h
    simp [onEpochDetectedE]
  · refine ⟨?_, ?_, fun _ => ?_⟩
    all_goals simp only [onEpochDetectedE, if_neg h]
    all_goals cases failEnd <;> cases failStart <;> split <;> simp [isAcctCall]

/-- C6 witness: with both external calls failing, the state still
advances to epoch 1 at time 9. -/
theorem c6_witness :
    (onEpochDetectedE true true ⟨0, 0⟩ 1 9).state = ⟨1, 9⟩ :=
  (c6_external_failure_state true true ⟨0, 0⟩ 1 9).2.2 (by decide)

/- A signal whose epoch equals `current_epoch`, delivered while the
tap is installed, is a complete no-op of the loop state. -/
theorem runStep_signal_dup (maxE : Int) (thr : Nat) (st : LoopState)
    (n : Int) (now : Nat) (hf : st.finished = false)
    (h : n = st.current_epoch) :
    runStep maxE thr st (Event.signal n now) = (st, []) := by
  subst h
  have hd := onEpochDetected_dup ⟨st.current_epoch, st.last_epoch_time⟩
    st.current_epoch now rfl
  simp [runStep, hf, hd]
  rw [← hf]

/- After the loop has shut down, the capture callback is gone: signals
are no-ops. -/
theorem runStep_signal_finished (maxE : Int) (thr : Nat) (st : LoopState)
    (n : Int) (now : Nat) (hf : st.finished = true) :
    runStep maxE thr st (Event.signal n now) = (st, []) := by
  simp [runStep, hf]

theorem runStep_tick_finished (maxE : Int) (thr : Nat) (st : LoopState)
    (now : Nat) (hf : st.finished = true) :
    runStep maxE thr st (Event.tick now) = (st, []) := by
  simp [runStep, hf]

/- A tick that observes a failed while-condition runs the finally
block: final `epoch_end`, then `stop`, and the loop is finished. -/
theorem runStep_tick_exit (maxE : Int) (thr : Nat) (st : LoopState)
    (now : Nat) (hf : st.finished = false)
    (h : st.stop_event = true ∨ maxE ≤ st.current_epoch) :
    runStep maxE thr st (Event.tick now) =
      ({ st with finished := true },
       [ECall.epoch_end st.current_epoch, ECall.sessionStop]) := by
  simp [runStep, hf, h]

/- A tick inside the loop whose elapsed time has reached the threshold
forces the fallback boundary `current_epoch + 1`. -/
theorem runStep_tick_fallback (maxE : Int) (thr : Nat) (st : LoopState)
    (now : Nat) (hf : st.finished = false) (hs : st.stop_event = false)
    (hm : st.current_epoch < maxE) (h0 : 0 ≤ st.current_epoch)
    (hth : thr ≤ now - st.last_epoch_time) :
    runStep maxE thr st (Event.tick now) =
      ({ st with current_epoch := st.current_epoch + 1,
                 last_epoch_time := now },
       [ECall.epoch_end st.current_epoch,
        ECall.logMetricsFor st.current_epoch,
        ECall.epoch_start (st.current_epoch + 1)]) := by
  have hcond : ¬ (st.stop_event = true ∨ maxE ≤ st.current_epoch) := by
    rintro (h | h)
    · rw [hs] at h
      exact Bool.false_ne_true h
    · omega
  have ha := onEpochDetected_accept ⟨st.current_epoch, st.last_epoch_time⟩
    (st.current_epoch + 1) now (by simp)
  simp [runStep, hf, hcond, hth, ha, h0]

/- A tick inside the loop whose elapsed time is below the threshold
does nothing. -/
theorem runStep_tick_noop (maxE : Int) (thr : Nat) (st : LoopState)
    (now : Nat) (hf : st.finished = false) (hs : st.stop_event = false)
    (hm : st.current_epoch < maxE) (hth : now - st.last_epoch_time < thr) :
    runStep maxE thr st (Event.tick now) = (st, []) := by
  have hcond : ¬ (st.stop_event = true ∨ maxE ≤ st.current_epoch) := by
    rintro (h | h)
    · rw [hs] at h
      exact Bool.false_ne_true h
    · omega
  have hth2 : ¬ (thr ≤ now - st.last_epoch_time) := by omega
  simp [runStep, hf, hcond, hth2]

/- `terminate()` always sets the stop event and issues the extra
`epoch_end` / `stop` pair, whatever the state. -/
theorem runStep_terminate (maxE : Int) (thr : Nat) (st : LoopState) :
    runStep maxE thr st Event.terminate =
      ({ st with stop_event := true },
       [ECall.epoch_end st.current_epoch, ECall.sessionStop]) := rfl

/-- C10: a duplicate signal leaves the whole loop state — in particular
`last_epoch_time`, the fallback timer — unchanged and issues no calls;
consequently a process that only re-emits the current epoch marker
still gets exactly one fallback transition once the threshold has
elapsed since the last accepted boundary. -/
theorem c10_duplicate_frame :
    (∀ (maxE : Int) (thr : Nat) (st : LoopState) (n : Int) (now : Nat),
       st.finished = false → n = st.current_epoch →
       runStep maxE thr st (Event.signal n now) = (st, [])) ∧
    (∀ (maxE : Int) (thr : Nat) (st : LoopState) (ds : List Event) (now : Nat),
       st.finished = false → st.stop_event = false →
       st.current_epoch < maxE → 0 ≤ st.current_epoch →
       ds.all (isDupOf st.current_epoch) = true →
       thr ≤ now - st.last_epoch_time →
       runEvents maxE thr st (ds ++ [Event.tick now]) =
         ({ st with current_epoch := st.current_epoch + 1,
                    last_epoch_time := now },
          [ECall.epoch_end st.current_epoch,
           ECall.logMetricsFor st.current_epoch,
           ECall.epoch_start (st.current_epoch + 1)])) := by
  refine ⟨fun maxE thr st n now hf h => runStep_signal_dup maxE thr st n now hf h, ?_⟩
  intro maxE thr st ds now hf hs hm h0 hdup hth
  induction ds with
  | nil =>
    have hfb := runStep_tick_fallback maxE thr st now hf hs hm h0 hth
    simp [runEvents, hfb]
  | cons e ds ih =>
    rw [List.all_cons, Bool.and_eq_true] at hdup
    obtain ⟨he, hds⟩ := hdup
    obtain ⟨n, t⟩ | t | _ := e
    · have hn : n = st.current_epoch := by
        simpa [isDupOf] using he
      have hd := runStep_signal_dup maxE thr st n t hf hn
      simp only [List.cons_append, runEvents, hd]
      simpa using ih hds
    · simp [isDupOf] at he
    · simp [isDupOf] at he

/-- C10 witness: two duplicate epoch-0 markers, then a tick past the
threshold: the loop still fires exactly one fallback transition to
epoch 1. -/
theorem c10_witness :
    runEvents 5 3 (initLoop 0)
        ([Event.signal 0 1, Event.signal 0 2] ++ [Event.tick 4]) =
      ({ initLoop 0 with current_epoch := (initLoop 0).current_epoch + 1,
                         last_epoch_time := 4 },
       [ECall.epoch_end (initLoop 0).current_epoch,
        ECall.logMetricsFor (initLoop 0).current_epoch,
        ECall.epoch_start ((initLoop 0).current_epoch + 1)]) :=
  c10_duplicate_frame.2 5 3 (initLoop 0) [Event.signal 0 1, Event.signal 0 2]
    4 rfl rfl (by decide) (by decide) (by decide) (by decide)

/-- C5 (amended): a loop tick fires the fallback exactly when the
elapsed time since the last boundary is at least (not strictly greater
than) `epoch_duration_threshold`; the fallback fabricates
`n = currentEpoch + 1` and applies the ordinary transition logic, so
`currentEpoch` advances by exactly 1 and the timer resets to the tick's
time; below the threshold a tick does nothing, and after a fallback no
second one fires until the threshold elapses again. -/
theorem c5_fallback_amended :
    (∀ (maxE : Int) (thr : Nat) (st : LoopState) (now : Nat),
       st.finished = false → st.stop_event = false →
       st.current_epoch < maxE → 0 ≤ st.current_epoch →
       thr ≤ now - st.last_epoch_time →
       runStep maxE thr st (Event.tick now) =
         ({ st with current_epoch := st.current_epoch + 1,
                    last_epoch_time := now },
          [ECall.epoch_end st.current_epoch,
           ECall.logMetricsFor st.current_epoch,
           ECall.epoch_start (st.current_epoch + 1)])) ∧
    (∀ (maxE : Int) (thr : Nat) (st : LoopState) (now : Nat),
       st.finished = false → st.stop_event = false →
       st.current_epoch < maxE → now - st.last_epoch_time < thr →
       runStep maxE thr st (Event.tick now) = (st, [])) ∧
    (∀ (maxE : Int) (thr : Nat) (st : LoopState) (now now2 : Nat),
       st.finished = false → st.stop_event = false →
       st.current_epoch < maxE → 0 ≤ st.current_epoch →
       thr ≤ now - st.last_epoch_time →
       st.current_epoch + 1 < maxE → now2 - now < thr →
       runEvents maxE thr st [Event.tick now, Event.tick now2] =
         ({ st with current_epoch := st.current_epoch + 1,
                    last_epoch_time := now },
          [ECall.epoch_end st.current_epoch,
           ECall.logMetricsFor st.current_epoch,
           ECall.epoch_start (st.current_epoch + 1)])) := by
  refine ⟨runStep_tick_fallback, runStep_tick_noop, ?_⟩
  intro maxE thr st now now2 hf hs hm h0 hth hm2 hth2
  have hfb := runStep_tick_fallback maxE thr st now hf hs hm h0 hth
  have hnoop := runStep_tick_noop maxE thr
    ({ st with current_epoch := st.current_epoch + 1, last_epoch_time := now })
    now2 hf hs hm2 hth2
  simp [runEvents, hfb, hnoop]

/-- C5 counterexample: with threshold 5 and last boundary at time 0, a
tick at time 5 has an elapsed time that does not strictly exceed the
threshold, yet the fallback transition fires (the code tests `>=`). -/
theorem c5_counterexample :
    ¬ ((5 : Nat) - (initLoop 0).last_epoch_time > 5) ∧
    (runStep 10 5 (initLoop 0) (Event.tick 5)).2 =
      [ECall.epoch_end 0, ECall.logMetricsFor 0, ECall.epoch_start 1] := by
  decide

/-- C5 witness: from a fresh loop at time 0 with threshold 5, a tick at
time 7 fires the fallback to epoch 1. -/
theorem c5_witness :
    runStep 10 5 (initLoop 0) (Event.tick 7) =
      ({ initLoop 0 with current_epoch := (initLoop 0).current_epoch + 1,
                         last_epoch_time := 7 },
       [ECall.epoch_end (initLoop 0).current_epoch,
        ECall.logMetricsFor (initLoop 0).current_epoch,
        ECall.epoch_start ((initLoop 0).current_epoch + 1)]) :=
  c5_fallback_amended.1 10 5 (initLoop 0) 7 rfl rfl (by decide) (by decide)
    (by decide)

/-- C4 (amended): the run loop shuts down (final `epoch_end` of the
current epoch, then `stop`) at the first tick where
`currentEpoch >= maxEpochs` or a stop was requested — not already when
`currentEpoch + 1 >= maxEpochs` — and a tick with
`currentEpoch < maxEpochs` and no stop request keeps the loop alive, so
the fallback may still begin the epoch with index `maxEpochs`; once
shut down, the loop accepts no further signals or ticks. -/
theorem c4_termination_amended :
    (∀ (maxE : Int) (thr : Nat) (st : LoopState) (now : Nat),
       st.finished = false →
       (st.stop_event = true ∨ maxE ≤ st.current_epoch) →
       runStep maxE thr st (Event.tick now) =
         ({ st with finished := true },
          [ECall.epoch_end st.current_epoch, ECall.sessionStop])) ∧
    (∀ (maxE : Int) (thr : Nat) (st : LoopState) (now : Nat),
       st.finished = false → st.stop_event = false →
       st.current_epoch < maxE →
       (runStep maxE thr st (Event.tick now)).1.finished = false) ∧
    (∀ (maxE : Int) (thr : Nat) (st : LoopState) (n : Int) (now : Nat),
       st.finished = true →
       runStep maxE thr st (Event.signal n now) = (st, []) ∧
       runStep maxE thr st (Event.tick now) = (st, [])) := by
  refine ⟨runStep_tick_exit, ?_, ?_⟩
  · intro maxE thr st now hf hs hm
    by_cases hth : thr ≤ now - st.last_epoch_time
    · have h0 : st.current_epoch < maxE := hm
      rw [show runStep maxE thr st (Event.tick now) =
        ({ st with current_epoch := st.current_epoch + 1,
                   last_epoch_time := now },
         (onEpochDetected ⟨st.current_epoch, st.last_epoch_time⟩
           (st.current_epoch + 1) now).2) from ?_]
      · exact hf
      · have hcond : ¬ (st.stop_event = true ∨ maxE ≤ st.current_epoch) := by
          rintro (h | h)
          · rw [hs] at h
            exact Bool.false_ne_true h
          · omega
        have ha := onEpochDetected_accept
          ⟨st.current_epoch, st.last_epoch_time⟩ (st.current_epoch + 1) now
          (by simp)
        simp [runStep, hf, hcond, hth, ha]
    · rw [runStep_tick_noop maxE thr st now hf hs hm (by omega)]
      exact hf
  · intro maxE thr st n now hf
    exact ⟨runStep_signal_finished maxE thr st n now hf,
           runStep_tick_finished maxE thr st now hf⟩

/-- C4 counterexample: with `max_epochs = 2` and threshold 5, fallback
ticks at times 10 and 20 leave the loop unfinished with
`currentEpoch = 2` and an `epoch_start` for epoch 2 in the trace: the
loop did not stop when `currentEpoch + 1` reached `maxEpochs` (after
the first fallback, `currentEpoch = 1`), and it began an epoch whose
index makes `currentEpoch + 1 = 3 > maxEpochs`. -/
theorem c4_counterexample :
    (runEvents 2 5 (initLoop 0) [Event.tick 10, Event.tick 20]).1.finished
        = false ∧
    (runEvents 2 5 (initLoop 0) [Event.tick 10, Event.tick 20]).1.current_epoch
        = 2 ∧
    ECall.epoch_start 2 ∈
      (runEvents 2 5 (initLoop 0) [Event.tick 10, Event.tick 20]).2 := by
  decide

/- Once the loop has shut down, a run without terminate calls issues
nothing further. -/
theorem runEvents_finished (maxE : Int) (thr : Nat) (st : LoopState)
    (events : List Event) (hf : st.finished = true)
    (hb : events.all benignEvent = true) :
    runEvents maxE thr st events = (st, []) := by
  induction events with
  | nil => rfl
  | cons e es ih =>
    rw [List.all_cons, Bool.and_eq_true] at hb
    obtain ⟨he, hes⟩ := hb
    obtain ⟨n, t⟩ | t | _ := e
    · simp [runEvents, runStep_signal_finished maxE thr st n t hf, ih hes]
    · simp [runEvents, runStep_tick_finished maxE thr st t hf, ih hes]
    · simp [benignEvent] at he

/- Accepting a boundary and then more boundaries ends at the last one. -/
theorem chainEnd_cons (c n : Int) (es : List Int) :
    chainEnd c (n :: es) = chainEnd n es :=
  List.getLastD_cons c n es

/- The pairing invariant of a run without terminate calls: the
accounting trace is an alternating end/start chain (each accepted
boundary contributes `epoch_end` of the previous current epoch
immediately followed by its own `epoch_start`), closed — exactly when
the loop has shut down — by a single final `epoch_end` of the last
current epoch and a single `stop`. -/
theorem runEvents_benign_chain :
    ∀ (events : List Event) (maxE : Int) (thr : Nat) (st : LoopState),
      st.finished = false → 0 ≤ st.current_epoch →
      events.all benignEvent = true →
      ∃ es : List Int,
        (runEvents maxE thr st events).2.filter (fun c => isAcctCall c) =
          boundaryChain st.current_epoch es ++
            (if (runEvents maxE thr st events).1.finished = true then
               [ECall.epoch_end (chainEnd st.current_epoch es),
                ECall.sessionStop]
             else []) ∧
        (runEvents maxE thr st events).1.current_epoch =
          chainEnd st.current_epoch es := by
  intro events
  induction events with
  | nil =>
    intro maxE thr st hf h0 hb
    refine ⟨[], ?_, rfl⟩
    simp [runEvents, boundaryChain, chainEnd, hf]
  | cons e es ih =>
    intro maxE thr st hf h0 hb
    rw [List.all_cons, Bool.and_eq_true] at hb
    obtain ⟨he, hes⟩ := hb
    obtain ⟨n, t⟩ | t | _ := e
    · have hn : (0 : Int) ≤ n := by simpa [benignEvent] using he
      by_cases hdup : n = st.current_epoch
      · have hd := runStep_signal_dup maxE thr st n t hf hdup
        obtain ⟨es1, h1, h2⟩ := ih maxE thr st hf h0 hes
        refine ⟨es1, ?_, ?_⟩
        · simp only [runEvents, hd]
          simpa using h1
        · simp only [runEvents, hd]
          simpa using h2
      · have ha := onEpochDetected_accept ⟨st.current_epoch, st.last_epoch_time⟩
          n t hdup
        have hstep : runStep maxE thr st (Event.signal n t) =
            ({ st with current_epoch := n, last_epoch_time := t },
             [ECall.epoch_end st.current_epoch,
              ECall.logMetricsFor st.current_epoch,
              ECall.epoch_start n]) := by
          simp [runStep, hf, ha, h0]
        obtain ⟨es1, h1, h2⟩ :=
          ih maxE thr { st with current_epoch := n, last_epoch_time := t }
            hf hn hes
        refine ⟨n :: es1, ?_, ?_⟩
        · simp only [runEvents, hstep, List.filter_append]
          rw [h1]
          simp [boundaryChain, chainEnd_cons, isAcctCall]
        · simp only [runEvents, hstep]
          rw [h2, chainEnd_cons]
    · by_cases hcond : st.stop_event = true ∨ maxE ≤ st.current_epoch
      · have hstep := runStep_tick_exit maxE thr st t hf hcond
        have hfin := runEvents_finished maxE thr { st with finished := true }
          es rfl hes
        refine ⟨[], ?_, ?_⟩
        · simp [runEvents, hstep, hfin, boundaryChain, chainEnd, isAcctCall]
        · simp [runEvents, hstep, hfin, chainEnd]
      · push_neg at hcond
        obtain ⟨hsne, hmlt⟩ := hcond
        have hs : st.stop_event = false := by
          cases hsv : st.stop_event
          · rfl
          · exact absurd hsv hsne
        have hm : st.current_epoch < maxE := by omega
        by_cases hth : thr ≤ t - st.last_epoch_time
        · have hstep := runStep_tick_fallback maxE thr st t hf hs hm h0 hth
          have hn : (0 : Int) ≤ st.current_epoch + 1 := by omega
          obtain ⟨es1, h1, h2⟩ :=
            ih maxE thr { st with current_epoch := st.current_epoch + 1,
                                  last_epoch_time := t } hf hn hes
          refine ⟨(st.current_epoch + 1) :: es1, ?_, ?_⟩
          · simp only [runEvents, hstep, List.filter_append]
            rw [h1]
            simp [boundaryChain, chainEnd_cons, isAcctCall]
          · simp only [runEvents, hstep]
            rw [h2, chainEnd_cons]
        · have hstep := runStep_tick_noop maxE thr st t hf hs hm (by omega)
          obtain ⟨es1, h1, h2⟩ := ih maxE thr st hf h0 hes
          refine ⟨es1, ?_, ?_⟩
          · simp only [runEvents, hstep]
            simpa using h1
          · simp only [runEvents, hstep]
            simpa using h2
    · simp [benignEvent] at he

/-- C1 (amended): in a run without `terminate()` calls, the accounting
trace after the prologue is an alternating chain in which every
`epoch_start` except the initial one is immediately preceded by exactly
one `epoch_end` of the previous current epoch, and shutdown by reaching
`max_epochs` (or an externally set stop flag) closes it with exactly
one final `epoch_end` and one `stop`.  Shutdown via `terminate()`,
however, issues the final `epoch_end` and `stop` twice — once inside
`terminate()` itself and once in the run loop's cleanup — and each
additional `terminate()` call issues one more such pair. -/
theorem c1_epoch_pairing_amended :
    (∀ (events : List Event) (maxE : Int) (thr : Nat) (st : LoopState),
       st.finished = false → 0 ≤ st.current_epoch →
       events.all benignEvent = true →
       ∃ es : List Int,
         (runEvents maxE thr st events).2.filter (fun c => isAcctCall c) =
           boundaryChain st.current_epoch es ++
             (if (runEvents maxE thr st events).1.finished = true then
                [ECall.epoch_end (chainEnd st.current_epoch es),
                 ECall.sessionStop]
              else [])) ∧
    (∀ (maxE : Int) (thr : Nat) (st : LoopState) (t : Nat),
       st.finished = false →
       (runEvents maxE thr st [Event.terminate, Event.tick t]).2 =
         [ECall.epoch_end st.current_epoch, ECall.sessionStop,
          ECall.epoch_end st.current_epoch, ECall.sessionStop]) ∧
    (∀ (maxE : Int) (thr : Nat) (st : LoopState) (t : Nat),
       st.finished = false →
       (runEvents maxE thr st
           [Event.terminate, Event.terminate, Event.tick t]).2 =
         [ECall.epoch_end st.current_epoch, ECall.sessionStop,
          ECall.epoch_end st.current_epoch, ECall.sessionStop,
          ECall.epoch_end st.current_epoch, ECall.sessionStop]) := by
  refine ⟨?_, ?_, ?_⟩
  · intro events maxE thr st hf h0 hb
    obtain ⟨es, h1, _⟩ := runEvents_benign_chain events maxE thr st hf h0 hb
    exact ⟨es, h1⟩
  · intro maxE thr st t hf
    have h2 := runStep_tick_exit maxE thr { st with stop_event := true } t hf
      (Or.inl rfl)
    simp [runEvents, runStep_terminate, h2]
  · intro maxE thr st t hf
    have h2 := runStep_tick_exit maxE thr { st with stop_event := true } t hf
      (Or.inl rfl)
    simp [runEvents, runStep_terminate, h2]

/-- C1 counterexample: requesting termination once (then letting the
loop observe it) makes the shutdown issue the final `epoch_end` twice
and `stop` twice — not exactly once as claimed. -/
theorem c1_counterexample :
    (acctTrace 5 20 0 [Event.terminate, Event.tick 1]).count
        (ECall.epoch_end 0) = 2 ∧
    (acctTrace 5 20 0 [Event.terminate, Event.tick 1]).count
        ECall.sessionStop = 2 ∧
    ¬ ((acctTrace 5 20 0 [Event.terminate, Event.tick 1]).count
        ECall.sessionStop = 1) := by
  decide

/-- C1 witness: a run accepting the signal for epoch 1, without
terminate; and the double end/stop pair of a terminate-driven
shutdown. -/
theorem c1_witness :
    (∃ es : List Int,
       (runEvents 3 100 (initLoop 0)
           [Event.signal 1 5, Event.tick 6]).2.filter
           (fun c => isAcctCall c) =
         boundaryChain (initLoop 0).current_epoch es ++
           (if (runEvents 3 100 (initLoop 0)
                 [Event.signal 1 5, Event.tick 6]).1.finished = true then
              [ECall.epoch_end (chainEnd (initLoop 0).current_epoch es),
               ECall.sessionStop]
            else [])) ∧
    (runEvents 3 100 (initLoop 0) [Event.terminate, Event.tick 1]).2 =
      [ECall.epoch_end (initLoop 0).current_epoch, ECall.sessionStop,
       ECall.epoch_end (initLoop 0).current_epoch, ECall.sessionStop] :=
  ⟨c1_epoch_pairing_amended.1 [Event.signal 1 5, Event.tick 6] 3 100
     (initLoop 0) rfl (by decide) (by decide),
   c1_epoch_pairing_amended.2.1 3 100 (initLoop 0) 1 rfl⟩

/-- C2 (amended): in the `max_epochs = 3` scenario with matched signals
for epochs 0, 1, 1, 2 followed by a terminate request, the accounting
call sequence is `start(session); start(0); end(0); start(1); end(1);
start(2); end(2); stop; end(2); stop` — the duplicate signal for epoch
1 produces no extra pair, but the final `epoch_end` and `stop` are each
issued twice, once by `terminate()` and once by the run loop's
cleanup. -/
theorem c2_scenario_amended :
    acctTrace 3 1000 0 c2events =
      [ECall.sessionStart, ECall.epoch_start 0, ECall.epoch_end 0,
       ECall.epoch_start 1, ECall.epoch_end 1, ECall.epoch_start 2,
       ECall.epoch_end 2, ECall.sessionStop, ECall.epoch_end 2,
       ECall.sessionStop] := by
  decide

/-- C2 counterexample: the accounting trace of the scenario is not the
claimed eight-call sequence ending in a single `end(2); stop`. -/
theorem c2_counterexample :
    acctTrace 3 1000 0 c2events ≠
      [ECall.sessionStart, ECall.epoch_start 0, ECall.epoch_end 0,
       ECall.epoch_start 1, ECall.epoch_end 1, ECall.epoch_start 2,
       ECall.epoch_end 2, ECall.sessionStop] := by
  decide

/- The pending buffer left by a split never contains a newline. -/
theorem splitLines_snd_no_nl : ∀ s : List Char, '\n' ∉ (splitLines s).2 := by
  intro s
  induction s with
  | nil => simp [splitLines]
  | cons c rest ih =>
    by_cases hc : c = '\n'
    · subst hc
      simpa [splitLines] using ih
    · simp only [splitLines, if_neg hc]
      rcases h : splitLines rest with ⟨l1, b⟩
      rw [h] at ih
      cases l1 with
      | nil =>
        simp only [consCh]
        intro hm
        rcases List.mem_cons.mp hm with h1 | h1
        · exact hc h1.symm
        · exact ih h1
      | cons l ls => simpa [consCh] using ih

/- Text without a newline splits into no complete line and itself as
the buffer. -/
theorem splitLines_of_no_nl : ∀ s : List Char, '\n' ∉ s → splitLines s = ([], s) := by
  intro s h
  induction s with
  | nil => rfl
  | cons c rest ih =>
    have hc : ¬ c = '\n' := fun e => h (by simp [e])
    have hrest : '\n' ∉ rest := fun hm => h (List.mem_cons_of_mem c hm)
    simp [splitLines, hc, ih hrest, consCh]

/- Splitting a concatenation: the left part's complete lines come
first, its buffer extends the first complete line of the right part
(or, when the right part has none, the joint buffer). -/
/- The two cons-equations of `splitLines`. -/
theorem splitLines_cons_nl (rest : List Char) :
    splitLines ('\n' :: rest) =
      ([] :: (splitLines rest).1, (splitLines rest).2) := by
  simp [splitLines]

theorem splitLines_cons_ch (c : Char) (hc : c ≠ '\n') (rest : List Char) :
    splitLines (c :: rest) = consCh c (splitLines rest) := by
  simp [splitLines, hc]

theorem splitLines_append (u v : List Char) :
    splitLines (u ++ v) =
      ((splitLines u).1 ++ mergeFirst (splitLines u).2 (splitLines v).1,
       if (splitLines v).1.isEmpty then (splitLines u).2 ++ (splitLines v).2
       else (splitLines v).2) := by
  induction u with
  | nil =>
    rcases hv : splitLines v with ⟨v1, v2⟩
    cases v1 with
    | nil => simp [splitLines, hv, mergeFirst]
    | cons l ls => simp [splitLines, hv, mergeFirst]
  | cons c u ih =>
    by_cases hc : c = '\n'
    · subst hc
      rcases hv : splitLines v with ⟨v1, v2⟩
      rw [hv] at ih
      simp only [List.cons_append, splitLines_cons_nl, ih, hv]
    · rcases hu : splitLines u with ⟨u1, u2⟩
      rcases hv : splitLines v with ⟨v1, v2⟩
      rw [hu, hv] at ih
      simp only [List.cons_append, splitLines_cons_ch c hc, ih, hu, hv]
      cases u1 <;> cases v1 <;> simp [consCh, mergeFirst]

/- `OutputCapture.write` in closed form: the chunk is forwarded and
captured, and the complete lines of `buffer ++ text` are handed over
while the split's trailing fragment becomes the new buffer. -/
theorem tapWrite_eq (st : TapState) (text : List Char) :
    tapWrite st text =
      { buffer := (splitLines (st.buffer ++ text)).2,
        forwarded := st.forwarded ++ [text],
        captured := st.captured ++ [text],
        handed := st.handed ++ (splitLines (st.buffer ++ text)).1 } := by
  by_cases h : '\n' ∈ st.buffer ++ text
  · simp [tapWrite, h]
  · simp [tapWrite, h, splitLines_of_no_nl _ h]

/- As long as the pending buffer holds no newline (which is invariant),
the carbontracker variant of `write` — whose newline test looks at the
chunk instead of the buffer — behaves identically. -/
theorem tapWriteCT_eq_tapWrite (st : TapState) (text : List Char)
    (h : '\n' ∉ st.buffer) : tapWriteCT st text = tapWrite st text := by
  have hiff : ('\n' ∈ st.buffer ++ text) ↔ ('\n' ∈ text) := by
    simp [List.mem_append, h]
  by_cases ht : '\n' ∈ text
  · simp [tapWriteCT, tapWrite, ht, hiff.mpr ht]
  · have hb : '\n' ∉ st.buffer ++ text := fun hm => ht (hiff.mp hm)
    simp [tapWriteCT, tapWrite, ht, hb]

/- Folding `write` over a chunk list, in closed form. -/
theorem foldl_tapWrite_eq :
    ∀ (chunks : List (List Char)) (st : TapState), '\n' ∉ st.buffer →
      chunks.foldl tapWrite st =
        { buffer := (splitLines (st.buffer ++ chunks.flatten)).2,
          forwarded := st.forwarded ++ chunks,
          captured := st.captured ++ chunks,
          handed := st.handed ++ (splitLines (st.buffer ++ chunks.flatten)).1 } := by
  intro chunks
  induction chunks with
  | nil =>
    intro st h
    simp [splitLines_of_no_nl st.buffer h]
  | cons t ts ih =>
    intro st h
    rw [List.foldl_cons, tapWrite_eq st t]
    have hb1 : '\n' ∉ (splitLines (st.buffer ++ t)).2 :=
      splitLines_snd_no_nl (st.buffer ++ t)
    rw [ih _ hb1]
    have key := splitLines_append (st.buffer ++ t) ts.flatten
    have key2 := splitLines_append ((splitLines (st.buffer ++ t)).2) ts.flatten
    rw [splitLines_of_no_nl _ hb1] at key2
    simp only [List.nil_append] at key2
    have hj : (t :: ts).flatten = t ++ ts.flatten := rfl
    rw [hj, ← List.append_assoc, key, key2]
    simp [List.append_assoc]

/- The CT variant folds identically from a newline-free buffer. -/
theorem foldl_tapWriteCT_eq :
    ∀ (chunks : List (List Char)) (st : TapState), '\n' ∉ st.buffer →
      chunks.foldl tapWriteCT st = chunks.foldl tapWrite st := by
  intro chunks
  induction chunks with
  | nil =>
    intro st _
    rfl
  | cons t ts ih =>
    intro st h
    rw [List.foldl_cons, List.foldl_cons, tapWriteCT_eq_tapWrite st t h]
    have hb : '\n' ∉ (tapWrite st t).buffer := by
      rw [tapWrite_eq]
      exact splitLines_snd_no_nl (st.buffer ++ t)
    exact ih (tapWrite st t) hb

/-- C7: over any sequence of `write(text)` calls, every chunk is
forwarded unchanged to the original destination and appended to the
capture sink; the lines handed to the matcher are exactly the
newline-terminated complete lines of the concatenation of all chunks —
each once, in order — with the trailing partial fragment retained as
the buffer (`splitLines` agrees with Python's `split('\n')` convention,
and the carbontracker variant of `write` behaves identically). -/
theorem c7_stream_tap :
    (∀ chunks : List (List Char),
       (chunks.foldl tapWrite tapInit).forwarded = chunks ∧
       (chunks.foldl tapWrite tapInit).captured = chunks ∧
       (chunks.foldl tapWrite tapInit).handed = (splitLines chunks.flatten).1 ∧
       (chunks.foldl tapWrite tapInit).buffer = (splitLines chunks.flatten).2) ∧
    (∀ s : List Char, pySplit s = (splitLines s).1 ++ [(splitLines s).2]) ∧
    (∀ chunks : List (List Char),
       chunks.foldl tapWriteCT tapInit = chunks.foldl tapWrite tapInit) := by
  refine ⟨?_, ?_, ?_⟩
  · intro chunks
    rw [foldl_tapWrite_eq chunks tapInit (by simp [tapInit])]
    simp [tapInit]
  · intro s
    induction s with
    | nil => rfl
    | cons c rest ih =>
      by_cases hc : c = '\n'
      · subst hc
        simp [pySplit, splitLines, ih]
      · rcases h : splitLines rest with ⟨l1, b⟩
        rw [h] at ih
        cases l1 with
        | nil => simp [pySplit, splitLines, hc, ih, h, consCh]
        | cons l ls => simp [pySplit, splitLines, hc, ih, h, consCh]
  · intro chunks
    exact foldl_tapWriteCT_eq chunks tapInit (by simp [tapInit])

/-- C8: the default pattern list, tried in order with first match
winning: `"Epoch 3/10 - loss: 0.5"` yields 3, `"[7, loss=0.1]"` yields
7 (only the bracketed pattern matches), `"random text"` yields no
match; whenever the first pattern matches, its result is the line's
result (short-circuiting the rest), as the line
`"Epoch 2 epoch=9"` shows — pattern 5 alone would extract 9, but the
matcher returns 2. -/
theorem c8_pattern_matching :
    matchLine ("Epoch 3/10 - loss: 0.5".toList) = some 3 ∧
    matchLine ("[7, loss=0.1]".toList) = some 7 ∧
    matchLine ("random text".toList) = none ∧
    (∀ (line : List Char) (n : Nat), pat1 line = some n →
       matchLine line = some n) ∧
    (matchLine ("Epoch 2 epoch=9".toList) = some 2 ∧
     pat5 ("Epoch 2 epoch=9".toList) = some 9) := by
  refine ⟨rfl, rfl, rfl, ?_, rfl, rfl⟩
  intro line n h
  simp [matchLine, defaultPatterns, List.findSome?_cons, h]

/-- C8 witness: applied to the line `"Epoch 3/10 - loss: 0.5"`, whose
first pattern extracts 3. -/
theorem c8_witness :
    matchLine ("Epoch 3/10 - loss: 0.5".toList) = some 3 :=
  c8_pattern_matching.2.2.2.1 ("Epoch 3/10 - loss: 0.5".toList) 3 rfl

/-- C9: `publish(epoch)` warns and does nothing when no log file
exists; on the scenario file (an "Epoch 2" power record of 150.5 W),
publishing epoch 2 issues exactly one `log_metrics` call at step 2
carrying the 150.5 W record, while publishing epoch 5 makes no metrics
call and raises no error (the model is a total function returning only
a warning); in general the forwarded power value is exactly the last
parsed record whose epoch number equals the published epoch. -/
theorem c9_metrics_relay :
    (∀ e : Int, parse_and_log_metrics [] e = [RelayCall.warnNoFiles]) ∧
    parse_and_log_metrics [⟨10, c9content⟩] 2 =
      [RelayCall.logMetrics [(gpuKey, (301 : ℚ) / 2)] 2] ∧
    parse_and_log_metrics [⟨10, c9content⟩] 5 = [RelayCall.warnNoMetrics 5] ∧
    (∀ (e : Int) (recs : List (Nat × ℚ)),
       powerFold e recs =
         ((recs.filter (fun r => decide ((r.1 : Int) = e))).getLast?).map
           (fun r => r.2)) := by
  refine ⟨fun e => rfl, ?_, by decide, ?_⟩
  · have hv : decVal ("150".toList) ("5".toList) = (301 : ℚ) / 2 := by
      have h1 : digitsToNat ("150".toList) = 150 := by decide
      have h2 : digitsToNat ("5".toList) = 5 := by decide
      have h3 : ("5".toList).length = 1 := by decide
      rw [decVal, h1, h2, h3]
      norm_num
    rw [← hv]
    rfl
  · intro e recs
    induction recs using List.reverseRecOn with
    | nil => rfl
    | append_singleton l r ih =>
      have hL : powerFold e (l ++ [r]) =
          (if (r.1 : Int) = e then some r.2 else powerFold e l) := by
        simp [powerFold, List.foldl_append]
      rw [hL]
      by_cases hp : (r.1 : Int) = e
      · simp [hp, List.filter_append, List.getLast?_concat]
      · simp [hp, List.filter_append, ih]

/-- C4 witness: a tick with `currentEpoch = maxEpochs = 1` exits the
loop and issues the final `epoch_end` and `stop`; a tick with
`currentEpoch = 1 < maxEpochs = 2` keeps the loop alive even though
`currentEpoch + 1 = maxEpochs`. -/
theorem c4_witness :
    runStep 1 20 ⟨1, 0, false, false⟩ (Event.tick 0) =
      ({ (⟨1, 0, false, false⟩ : LoopState) with finished := true },
       [ECall.epoch_end 1, ECall.sessionStop]) ∧
    (runStep 2 20 ⟨1, 0, false, false⟩ (Event.tick 0)).1.finished = false :=
  ⟨c4_termination_amended.1 1 20 ⟨1, 0, false, false⟩ 0 rfl (by decide),
   c4_termination_amended.2.1 2 20 ⟨1, 0, false, false⟩ 0 rfl rfl (by decide)⟩

end Radt
